import Mathlib

/-!
Verification development for the OpenAI-compatible chat-completion adapter
(`OpenAIContentGenerator`): a shallow embedding of the request translator
(`convertToOpenAIRequest`, `convertContentToOpenAIMessage`), the non-streaming
response reconstructor (`convertFromOpenAIResponse`), the streaming
reconstructor (`convertFromOpenAIStream`), and the finish-reason mapper
(`mapFinishReason`), together with theorems settling the specification claims.

Modelling conventions:
* JSON values are modelled by the inductive `Json`; serialization
  (`JSON.stringify`, both compact and 2-space pretty-printed forms) is given
  concretely, while JSON *parsing* (the external `JSON.parse`, whose failures
  the source catches) is a parameter `p : String → Option Json` of every
  definition that parses.
* Synthesized call ids (`Date.now()` / `Math.random()` in the source) are
  modelled by an id-generator parameter `genId : Nat → String` applied to a
  counter threaded through the computation.
* JavaScript truthiness is modelled explicitly: an absent field is `none`, an
  empty string is falsy, an empty array and every object are truthy.
-/

namespace GeminiOpenAI

/-- JSON value (model of a JavaScript value travelling through JSON.parse /
JSON.stringify). Object fields are kept in order, as JavaScript does. -/
inductive Json where
  | null : Json
  | bool (b : Bool) : Json
  | num (n : Int) : Json
  | str (s : String) : Json
  | arr (xs : List Json) : Json
  | obj (fields : List (String × Json)) : Json

/-- JavaScript truthiness of a JSON value: `null`, `false`, `0` and `""` are
falsy; every array and object is truthy. -/
def jsTruthyJson : Json → Bool
  | .null => false
  | .bool b => b
  | .num n => n != 0
  | .str s => s != ""
  | .arr _ => true
  | .obj _ => true

/-- JavaScript `x || d` on an optional string: the default is taken when the
field is absent or the string is empty (falsy). -/
def jsOrS (x : Option String) (d : String) : String :=
  match x with
  | some s => if s = "" then d else s
  | none => d

/-- JavaScript `x || d` on an optional JSON value. -/
def jsOrJ (x : Option Json) (d : Json) : Json :=
  match x with
  | some v => if jsTruthyJson v then v else d
  | none => d

/-- JavaScript truthiness of an optional string field. -/
def jsTruthyOS (x : Option String) : Bool :=
  match x with
  | some s => s != ""
  | none => false

/-- Escape one character for a JSON string literal (model of the escaping
performed by `JSON.stringify`). -/
def escapeJsonChar (c : Char) : String :=
  if c = '"' then "\\\""
  else if c = '\\' then "\\\\"
  else if c = '\n' then "\\n"
  else if c = '\t' then "\\t"
  else if c = '\r' then "\\r"
  else String.singleton c

/-- Escape a string for inclusion in JSON output. -/
def escapeJson (s : String) : String :=
  String.join (s.toList.map escapeJsonChar)

/-- Serialize a JSON scalar (shared by the compact and pretty printers). -/
def stringifyScalar : Json → String
  | .null => "null"
  | .bool true => "true"
  | .bool false => "false"
  | .num n => toString n
  | .str s => "\"" ++ escapeJson s ++ "\""
  | .arr _ => ""
  | .obj _ => ""

mutual

/-- Model of compact `JSON.stringify(v)`. -/
def Json.stringify : Json → String
  | .arr xs => "[" ++ stringifyList xs ++ "]"
  | .obj fs => "\x7b" ++ stringifyFields fs ++ "\x7d"
  | v => stringifyScalar v

/-- Comma-separated serialization of array elements. -/
def stringifyList : List Json → String
  | [] => ""
  | [x] => Json.stringify x
  | x :: xs => Json.stringify x ++ "," ++ stringifyList xs

/-- Comma-separated serialization of object fields. -/
def stringifyFields : List (String × Json) → String
  | [] => ""
  | [(k, v)] => "\"" ++ escapeJson k ++ "\":" ++ Json.stringify v
  | (k, v) :: fs =>
      "\"" ++ escapeJson k ++ "\":" ++ Json.stringify v ++ "," ++ stringifyFields fs
end

/-- `d` levels of two-space indentation, as produced by
`JSON.stringify(v, null, 2)`. -/
def jsonIndent (d : Nat) : String :=
  String.join (List.replicate d "  ")

mutual

/-- Model of pretty `JSON.stringify(v, null, 2)` at nesting depth `d`. -/
def Json.stringifyPrettyAt (d : Nat) : Json → String
  | .arr [] => "[]"
  | .arr xs =>
      "[\n" ++ prettyListAt d xs ++ "\n" ++ jsonIndent d ++ "]"
  | .obj [] => "\x7b\x7d"
  | .obj fs =>
      "\x7b\n" ++ prettyFieldsAt d fs ++ "\n" ++ jsonIndent d ++ "\x7d"
  | v => stringifyScalar v

/-- Pretty-printed array elements, one per line. -/
def prettyListAt (d : Nat) : List Json → String
  | [] => ""
  | [x] => jsonIndent (d + 1) ++ Json.stringifyPrettyAt (d + 1) x
  | x :: xs =>
      jsonIndent (d + 1) ++ Json.stringifyPrettyAt (d + 1) x ++ ",\n"
        ++ prettyListAt d xs

/-- Pretty-printed object fields, one per line. -/
def prettyFieldsAt (d : Nat) : List (String × Json) → String
  | [] => ""
  | [(k, v)] =>
      jsonIndent (d + 1) ++ "\"" ++ escapeJson k ++ "\": "
        ++ Json.stringifyPrettyAt (d + 1) v
  | (k, v) :: fs =>
      jsonIndent (d + 1) ++ "\"" ++ escapeJson k ++ "\": "
        ++ Json.stringifyPrettyAt (d + 1) v ++ ",\n" ++ prettyFieldsAt d fs
end

/-- Model of `JSON.stringify(v, null, 2)` (top level). -/
def Json.stringifyPretty (v : Json) : String :=
  Json.stringifyPrettyAt 0 v

/-- Vendor-neutral function call (`FunctionCall` of `@google/genai`): all
fields optional on the wire-independent side. -/
structure FunctionCall where
  id : Option String
  name : Option String
  args : Option Json

/-- Vendor-neutral message part (`Part` of `@google/genai`), restricted to the
variants the adapter distinguishes: text, function call, function response,
file data, and any other unsupported kind. -/
inductive Part where
  | text (s : String)
  | functionCall (fc : FunctionCall)
  | functionResponse (id : Option String) (response : Json)
  | fileData (name : Option String) (fileUri : Option String)
  | other

/-- Vendor-neutral content turn: a role tag and an ordered list of parts. -/
structure Content where
  role : String
  parts : List Part

/-- Vendor-neutral finish reasons used by the adapter. -/
inductive FinishReason where
  | STOP
  | MAX_TOKENS
  | SAFETY
  | OTHER
  deriving DecidableEq, Repr

/-- One declared function inside a tool declaration. -/
structure FunctionDeclaration where
  name : Option String
  description : Option String
  parameters : Option Json
  parametersJsonSchema : Option Json

/-- A tool declaration (`Tool` of `@google/genai`): an optional list of
function declarations. -/
structure ToolDecl where
  functionDeclarations : Option (List FunctionDeclaration)

/-- The `systemInstruction` union accepted by the adapter: a plain string, a
single `Part`, or a `Content` with parts. -/
inductive SystemInstruction where
  | str (s : String)
  | part (pt : Part)
  | content (c : Content)

/-- The slice of the generation config read by the adapter. -/
structure GenerateConfig where
  systemInstruction : Option SystemInstruction := none
  temperature : Option Rat := none
  topP : Option Rat := none
  tools : Option (List ToolDecl) := none
  responseMimeType : Option String := none
  responseJsonSchema : Option Json := none

/-- Vendor-neutral generation request (`GenerateContentParameters`). -/
structure GenerateContentParameters where
  contents : List Content
  config : Option GenerateConfig := none

/-- The `function` payload of a wire tool call: name plus JSON-encoded
argument string. -/
structure WireFunction where
  name : String
  arguments : String

/-- A complete wire tool call (the constant `type: 'function'` tag is
omitted). -/
structure WireToolCall where
  id : String
  function : WireFunction

/-- A wire message of the OpenAI-style request (`OpenAIMessage`). -/
structure OpenAIMessage where
  role : String
  content : Option String
  function_call : Option WireFunction := none
  tool_calls : Option (List WireToolCall) := none
  tool_call_id : Option String := none

/-- A flattened wire function schema (`OpenAIFunction`). -/
structure OpenAIFunction where
  name : String
  description : Option String
  parameters : Json

/-- A wire tool entry (the constant `type: 'function'` tag is omitted). -/
structure OpenAITool where
  function : OpenAIFunction

/-- The wire request produced by the translator (`OpenAIChatRequest`,
restricted to the fields the translator ever sets). -/
structure OpenAIChatRequest where
  model : String
  messages : List OpenAIMessage
  stream : Bool
  temperature : Option Rat := none
  top_p : Option Rat := none
  tools : Option (List OpenAITool) := none
  tool_choice : Option String := none

/-- JavaScript truthiness of a `systemInstruction` value: a string is falsy
when empty, objects are always truthy. -/
def jsTruthySI : SystemInstruction → Bool
  | .str s => s != ""
  | .part _ => true
  | .content _ => true

/-- `instruction.text || instruction.parts?.[0]?.text || ''` applied to the
system-instruction union (a plain string is taken as-is). -/
def extractSystemText : SystemInstruction → String
  | .str s => s
  | .part pt =>
      match pt with
      | .text s => s
      | _ => ""
  | .content c =>
      match c.parts.head? with
      | some (.text s) => s
      | _ => ""

/-- System text collected from the config before JSON-schema injection
(the `if (request.config?.systemInstruction)` block). -/
def systemTextBase (cfg : Option GenerateConfig) : String :=
  match cfg with
  | some c =>
      match c.systemInstruction with
      | some si => if jsTruthySI si then extractSystemText si else ""
      | none => ""
  | none => ""

/-- The instruction suffix appended when a JSON response schema is requested
(the `jsonInstruction` template literal). -/
def jsonSchemaInstruction (sysText : String) (schema : Json) : String :=
  (if sysText = "" then "" else "\n\n")
    ++ "IMPORTANT: You must respond with valid JSON that follows this exact schema:\n"
    ++ Json.stringifyPretty schema
    ++ "\n\nReturn only the JSON object, no additional text or markdown formatting."

/-- Final system text: base text plus the JSON-schema instruction when
`responseMimeType === 'application/json'` and a truthy schema is present. -/
def systemTextFinal (cfg : Option GenerateConfig) : String :=
  let base := systemTextBase cfg
  let needsJson := (cfg.bind (fun c => c.responseMimeType)) = some "application/json"
  match cfg.bind (fun c => c.responseJsonSchema) with
  | some schema =>
      if needsJson ∧ jsTruthyJson schema then base ++ jsonSchemaInstruction base schema
      else base
  | none => base

/-- `'text' in part`. -/
def isTextPart : Part → Bool
  | .text _ => true
  | _ => false

/-- `'functionCall' in part`. -/
def isFunctionCallPart : Part → Bool
  | .functionCall _ => true
  | _ => false

/-- `'functionResponse' in part`. -/
def isFunctionResponsePart : Part → Bool
  | .functionResponse _ _ => true
  | _ => false

/-- Role mapping of the translator: `model` becomes `assistant`, everything
else passes through. -/
def mapRole (r : String) : String :=
  if r = "model" then "assistant" else r

/-- Human-readable placeholder for a part that is neither text nor call nor
response (branch (d) of `convertContentToOpenAIMessage`). -/
def describeOtherPart : Part → String
  | .fileData nm uri => "[File: " ++ jsOrS nm (jsOrS uri "unknown") ++ "]"
  | _ => "[Unsupported content type]"

/-- Text extracted from a text part (`part.text || ''`). -/
def textOfPart : Part → String
  | .text s => s
  | _ => ""

/-- Shallow embedding of `convertContentToOpenAIMessage`. `freshId` stands for
the `'call_' + Date.now()` id that would be minted for a function-call part
lacking one. -/
def convertContentToOpenAIMessage (freshId : String) (content : Content) :
    Option OpenAIMessage :=
  if content.parts.length = 0 then none
  else
    match content.parts.find? isFunctionResponsePart with
    | some (.functionResponse rid resp) =>
        some { role := "tool", content := some (Json.stringify resp),
               tool_call_id := some (jsOrS rid "unknown") }
    | _ =>
      match content.parts.find? isFunctionCallPart with
      | some (.functionCall fc) =>
          some { role := "assistant", content := none,
                 tool_calls := some [{ id := jsOrS fc.id freshId,
                                       function := { name := fc.name.getD "",
                                                     arguments := Json.stringify (jsOrJ fc.args (Json.obj [])) } }] }
      | _ =>
        let textParts := content.parts.filter isTextPart
        if textParts.length > 0 then
          some { role := mapRole content.role,
                 content := some (String.join (textParts.map textOfPart)) }
        else
          let otherParts := content.parts.filter
            (fun pt => !(isTextPart pt) && !(isFunctionCallPart pt) && !(isFunctionResponsePart pt))
          if otherParts.length > 0 then
            some { role := mapRole content.role,
                   content := some (String.intercalate "\n" (otherParts.map describeOtherPart)) }
          else none

/-- Flattening of tool declarations into the wire tool list. -/
def flattenTools (ts : List ToolDecl) : List OpenAITool :=
  (ts.map (fun t =>
    (t.functionDeclarations.getD []).map (fun f =>
      ({ function := { name := jsOrS f.name "unknown_function",
                       description := f.description,
                       parameters := jsOrJ f.parametersJsonSchema (jsOrJ f.parameters (Json.obj [])) } }
        : OpenAITool)))).flatten

/-- Shallow embedding of `convertToOpenAIRequest`. `targetModel` is the
adapter's configured model identifier; `genId` supplies the synthesized call
id used for the function-call turn at each content position. -/
def convertToOpenAIRequest (targetModel : String) (genId : Nat → String)
    (request : GenerateContentParameters) (stream : Bool) : OpenAIChatRequest :=
  let sysText := systemTextFinal request.config
  let sysMessages : List OpenAIMessage :=
    if sysText = "" then [] else [{ role := "system", content := some sysText }]
  let contentMessages :=
    request.contents.enum.filterMap
      (fun ic => convertContentToOpenAIMessage (genId ic.1) ic.2)
  let toolsPair : Option (List OpenAITool) × Option String :=
    match request.config.bind (fun c => c.tools) with
    | some ts =>
        if ts.length > 0 then
          let flat := flattenTools ts
          if flat.length > 0 then (some flat, some "auto") else (none, none)
        else (none, none)
    | none => (none, none)
  { model := targetModel,
    messages := sysMessages ++ contentMessages,
    stream := stream,
    temperature := request.config.bind (fun c => c.temperature),
    top_p := request.config.bind (fun c => c.topP),
    tools := toolsPair.1,
    tool_choice := toolsPair.2 }

/-- A non-streaming wire message (`choice.message`). -/
structure RespMessage where
  content : Option String
  function_call : Option WireFunction := none
  tool_calls : Option (List WireToolCall) := none

/-- A choice of a non-streaming wire response. -/
structure RespChoice where
  index : Nat
  message : RespMessage
  finish_reason : String

/-- Wire usage counts. -/
structure Usage where
  prompt_tokens : Nat
  completion_tokens : Nat
  total_tokens : Nat

/-- The non-streaming wire response (`OpenAIChatResponse`). -/
structure OpenAIChatResponse where
  choices : List RespChoice
  usage : Option Usage := none

/-- Vendor-neutral usage metadata. -/
structure UsageMetadata where
  promptTokenCount : Nat
  candidatesTokenCount : Nat
  totalTokenCount : Nat

/-- A vendor-neutral response candidate. -/
structure Candidate where
  content : Content
  finishReason : Option FinishReason
  index : Nat

/-- Vendor-neutral generation response (fields the adapter never sets, such as
`executableCode`, are omitted: they are always `undefined`). -/
structure GenerateContentResponse where
  candidates : List Candidate
  usageMetadata : Option UsageMetadata := none
  functionCalls : Option (List FunctionCall) := none

/-- Shallow embedding of `mapFinishReason`. -/
def mapFinishReason (reason : String) : FinishReason :=
  if reason = "stop" then .STOP
  else if reason = "length" then .MAX_TOKENS
  else if reason = "function_call" then .STOP
  else if reason = "tool_calls" then .STOP
  else if reason = "content_filter" then .SAFETY
  else .OTHER

/-- `s ? JSON.parse(s) : {}`, with the surrounding `catch` degrading a parse
failure to the empty object. -/
def parseStrOrEmpty (p : String → Option Json) (s : String) : Json :=
  if s = "" then Json.obj [] else (p s).getD (Json.obj [])

/-- The per-call loop of `convertFromOpenAIResponse` over a non-empty wire
tool-call list, threading the synthesized-id counter. -/
def convertToolCallsLoop (p : String → Option Json) (genId : Nat → String) :
    List WireToolCall → Nat → List Part × Nat
  | [], ctr => ([], ctr)
  | tc :: rest, ctr =>
      let args := parseStrOrEmpty p tc.function.arguments
      let idCtr : String × Nat :=
        if tc.id = "" then (genId ctr, ctr + 1) else (tc.id, ctr)
      let tail := convertToolCallsLoop p genId rest idCtr.2
      (Part.functionCall { id := some idCtr.1, name := some tc.function.name,
                           args := some args } :: tail.1, tail.2)

/-- The legacy `function_call` branch of `convertFromOpenAIResponse`: always
mints an id and applies the parse-or-empty-object policy. -/
def convertLegacyCall (p : String → Option Json) (genId : Nat → String)
    (ctr : Nat) (fcall : WireFunction) : Part × Nat :=
  (Part.functionCall { id := some (genId ctr), name := some fcall.name,
                       args := some (parseStrOrEmpty p fcall.arguments) }, ctr + 1)

/-- The text part staged from a non-streaming message
(`if (choice.message.content)`). -/
def stagedTextNS (msg : RespMessage) : List Part :=
  match msg.content with
  | some c => if c = "" then [] else [Part.text c]
  | none => []

/-- The call parts staged from a non-streaming message: the indexed tool-call
branch when `tool_calls` is present and non-empty, else the legacy branch. -/
def callPartsNS (p : String → Option Json) (genId : Nat → String)
    (msg : RespMessage) : List Part :=
  let useToolCalls : Bool :=
    match msg.tool_calls with
    | some tcs => tcs.length > 0
    | none => false
  if useToolCalls then (convertToolCallsLoop p genId (msg.tool_calls.getD []) 0).1
  else
    match msg.function_call with
    | some fcall => [(convertLegacyCall p genId 0 fcall).1]
    | none => []

/-- Extraction of function-call payloads from a part list (the
`parts.filter(...).map(...)` building the `functionCalls` convenience list). -/
def functionCallsOf (parts : List Part) : List FunctionCall :=
  parts.filterMap (fun pt =>
    match pt with
    | .functionCall fc => some fc
    | _ => none)

/-- Shallow embedding of `convertFromOpenAIResponse` (the variant with
per-call error recovery). Throwing is modelled by `Except.error`. -/
def convertFromOpenAIResponse (p : String → Option Json) (genId : Nat → String)
    (response : OpenAIChatResponse) : Except String GenerateContentResponse :=
  match response.choices.head? with
  | none => .error "No choices in OpenAI response"
  | some choice =>
      let parts := stagedTextNS choice.message ++ callPartsNS p genId choice.message
      let fcs := functionCallsOf parts
      .ok { candidates := [{ content := { role := "model", parts := parts },
                             finishReason := some (mapFinishReason choice.finish_reason),
                             index := choice.index }],
            usageMetadata := response.usage.map (fun u =>
              { promptTokenCount := u.prompt_tokens,
                candidatesTokenCount := u.completion_tokens,
                totalTokenCount := u.total_tokens }),
            functionCalls := if fcs.length > 0 then some fcs else none }

/-- A legacy streaming function-call fragment (`delta.function_call`), and
also the `function` payload of an indexed tool-call fragment. -/
structure LegacyDelta where
  name : Option String := none
  arguments : Option String := none
  deriving DecidableEq, Repr

/-- An indexed streaming tool-call fragment (`delta.tool_calls[i]`). -/
structure ToolCallDelta where
  index : Nat
  id : Option String := none
  function : Option LegacyDelta := none
  deriving DecidableEq, Repr

/-- The delta of a streaming chunk choice. -/
structure ChunkDelta where
  content : Option String := none
  function_call : Option LegacyDelta := none
  tool_calls : Option (List ToolCallDelta) := none
  deriving DecidableEq, Repr

/-- A choice of a streaming chunk. `finish_reason` is `none` for both the
absent and the `null` wire value (indistinguishable to this code). -/
structure ChunkChoice where
  index : Nat
  delta : ChunkDelta
  finish_reason : Option String := none
  deriving DecidableEq, Repr

/-- A streaming wire chunk (`OpenAIStreamChunk`, restricted to the `choices`
field, the only one the reconstructor reads). -/
structure OpenAIStreamChunk where
  choices : List ChunkChoice
  deriving DecidableEq, Repr

/-- An in-flight call accumulator
(`Partial<FunctionCall> & { arguments?: string }`). -/
structure CallAcc where
  id : Option String := none
  name : Option String := none
  arguments : Option String := none
  deriving DecidableEq, Repr

/-- The state of the streaming reconstructor carried across chunks. `ctr`
feeds the synthesized-id generator. -/
structure StreamState where
  currentFunctionCall : CallAcc := {}
  currentToolCalls : List (Nat × CallAcc) := []
  hasActiveToolCalls : Bool := false
  ctr : Nat := 0
  deriving DecidableEq, Repr

/-- Application of a legacy function-call fragment to the legacy accumulator:
a (truthy) name fragment overwrites the name and mints an id; a (truthy)
arguments fragment is appended to the argument buffer. -/
def applyLegacyDelta (genId : Nat → String) (fc : CallAcc) (ctr : Nat)
    (d : LegacyDelta) : CallAcc × Nat :=
  let step1 : CallAcc × Nat :=
    match d.name with
    | some n =>
        if n = "" then (fc, ctr)
        else ({ fc with name := some n, id := some (genId ctr) }, ctr + 1)
    | none => (fc, ctr)
  match d.arguments with
  | some a =>
      if a = "" then step1
      else ({ step1.1 with arguments := some ((step1.1.arguments.getD "") ++ a) }, step1.2)
  | none => step1

/-- Application of one indexed tool-call fragment to one accumulator:
overwrite id/name when (truthily) supplied, append the argument fragment. -/
def updateToolAcc (acc : CallAcc) (d : ToolCallDelta) : CallAcc :=
  let acc1 :=
    match d.id with
    | some i => if i = "" then acc else { acc with id := some i }
    | none => acc
  let acc2 :=
    match d.function.bind (fun f => f.name) with
    | some n => if n = "" then acc1 else { acc1 with name := some n }
    | none => acc1
  match d.function.bind (fun f => f.arguments) with
  | some a =>
      if a = "" then acc2
      else { acc2 with arguments := some ((acc2.arguments.getD "") ++ a) }
  | none => acc2

/-- Update of the first accumulator with the fragment's index (the `find`
in the source returns the first match). -/
def updateFirstToolAcc : List (Nat × CallAcc) → ToolCallDelta → List (Nat × CallAcc)
  | [], _ => []
  | a :: rest, d =>
      if a.1 = d.index then (a.1, updateToolAcc a.2 d) :: rest
      else a :: updateFirstToolAcc rest d

/-- Application of one indexed fragment to the accumulator map: locate the
accumulator at that index, creating one at the end in insertion order if
absent. -/
def applyToolCallDelta (accs : List (Nat × CallAcc)) (d : ToolCallDelta) :
    List (Nat × CallAcc) :=
  if accs.any (fun a => a.1 == d.index) then updateFirstToolAcc accs d
  else accs ++ [(d.index, updateToolAcc {} d)]

/-- The accumulation phase of one chunk (source steps 2 and 3): legacy and
indexed fragments are folded into the state and `hasActiveToolCalls` is set
whenever the corresponding delta field is present. -/
def accumulateDelta (genId : Nat → String) (s : StreamState) (delta : ChunkDelta) :
    StreamState :=
  let s1 :=
    match delta.function_call with
    | some d =>
        let r := applyLegacyDelta genId s.currentFunctionCall s.ctr d
        { s with currentFunctionCall := r.1, ctr := r.2, hasActiveToolCalls := true }
    | none => s
  match delta.tool_calls with
  | some ds =>
      { s1 with currentToolCalls := ds.foldl applyToolCallDelta s1.currentToolCalls,
                hasActiveToolCalls := true }
  | none => s1

/-- `acc.arguments ? JSON.parse(acc.arguments) : {}` with the `catch`
producing the empty object. -/
def parseArgsOrEmpty (p : String → Option Json) (x : Option String) : Json :=
  match x with
  | some a => if a = "" then Json.obj [] else (p a).getD (Json.obj [])
  | none => Json.obj []

/-- `acc.id || genId ctr`: uses the stored id when truthy, else mints one
consuming the counter. -/
def idOrMint (genId : Nat → String) (ctr : Nat) (x : Option String) :
    String × Nat :=
  match x with
  | some i => if i = "" then (genId ctr, ctr + 1) else (i, ctr)
  | none => (genId ctr, ctr + 1)

/-- Finalization of the legacy accumulator: when a (truthy) name was
collected, parse-or-fallback the buffer and stage one function-call part. -/
def finalizeLegacy (p : String → Option Json) (genId : Nat → String)
    (ctr : Nat) (fc : CallAcc) : List Part × Nat :=
  if jsTruthyOS fc.name then
    let idCtr := idOrMint genId ctr fc.id
    ([Part.functionCall { id := some idCtr.1, name := fc.name,
                          args := some (parseArgsOrEmpty p fc.arguments) }], idCtr.2)
  else ([], ctr)

/-- Finalization of the indexed accumulators in insertion order: each
accumulator that collected a (truthy) name yields one part, nameless ones are
skipped. -/
def finalizeToolAccs (p : String → Option Json) (genId : Nat → String) :
    List (Nat × CallAcc) → Nat → List Part × Nat
  | [], ctr => ([], ctr)
  | a :: rest, ctr =>
      if jsTruthyOS a.2.name then
        let idCtr := idOrMint genId ctr a.2.id
        let tail := finalizeToolAccs p genId rest idCtr.2
        (Part.functionCall { id := some idCtr.1, name := a.2.name,
                             args := some (parseArgsOrEmpty p a.2.arguments) } :: tail.1,
         tail.2)
      else finalizeToolAccs p genId rest ctr

/-- Full flush of the accumulators: legacy part first, then the indexed parts
in insertion order (source order of the two finalization blocks). -/
def finalizeParts (p : String → Option Json) (genId : Nat → String) (ctr : Nat)
    (fc : CallAcc) (tcs : List (Nat × CallAcc)) : List Part × Nat :=
  let leg := finalizeLegacy p genId ctr fc
  let tl := finalizeToolAccs p genId tcs leg.2
  (leg.1 ++ tl.1, tl.2)

/-- The text part staged from a chunk delta (`if (choice.delta.content)`). -/
def stagedTextStream (content : Option String) : List Part :=
  match content with
  | some t => if t = "" then [] else [Part.text t]
  | none => []

/-- Whether a finish-reason token is one of the two call-terminating ones. -/
def isCallFinish (fr : Option String) : Bool :=
  fr == some "function_call" || fr == some "tool_calls"

/-- `choice.finish_reason ? mapFinishReason(choice.finish_reason) :
undefined` (truthiness: an empty token maps to `none`). -/
def chunkFinishReason (fr : Option String) : Option FinishReason :=
  match fr with
  | some r => if r = "" then none else some (mapFinishReason r)
  | none => none

/-- A streaming emission: one candidate with role `model`, the staged parts,
the chunk's mapped finish reason and index, plus the convenience
function-call list. -/
def mkStreamResponse (parts : List Part) (fr : Option FinishReason) (idx : Nat) :
    GenerateContentResponse :=
  let fcs := functionCallsOf parts
  { candidates := [{ content := { role := "model", parts := parts },
                     finishReason := fr, index := idx }],
    usageMetadata := none,
    functionCalls := if fcs.length > 0 then some fcs else none }

/-- Processing of one streaming chunk: stage text, accumulate call fragments,
flush when `hasActiveToolCalls && (finish-reason is a call token || the delta
carries neither call field)`, and emit iff at least one part was staged. -/
def processChunk (p : String → Option Json) (genId : Nat → String)
    (s : StreamState) (chunk : OpenAIStreamChunk) :
    List GenerateContentResponse × StreamState :=
  match chunk.choices.head? with
  | none => ([], s)
  | some choice =>
      let textParts := stagedTextStream choice.delta.content
      let s1 := accumulateDelta genId s choice.delta
      let doFlush := s1.hasActiveToolCalls &&
        (isCallFinish choice.finish_reason ||
          (choice.delta.function_call.isNone && choice.delta.tool_calls.isNone))
      if doFlush then
        let fin := finalizeParts p genId s1.ctr s1.currentFunctionCall s1.currentToolCalls
        let parts := textParts ++ fin.1
        let s2 : StreamState :=
          { currentFunctionCall :=
              if jsTruthyOS s1.currentFunctionCall.name then {}
              else s1.currentFunctionCall,
            currentToolCalls := [],
            hasActiveToolCalls :=
              if isCallFinish choice.finish_reason then false
              else s1.hasActiveToolCalls,
            ctr := fin.2 }
        (if parts.length > 0 then
           [mkStreamResponse parts (chunkFinishReason choice.finish_reason) choice.index]
         else [], s2)
      else
        (if textParts.length > 0 then
           [mkStreamResponse textParts (chunkFinishReason choice.finish_reason) choice.index]
         else [], s1)

/-- Folding `processChunk` over the chunk sequence, concatenating the
per-chunk emissions. -/
def processChunks (p : String → Option Json) (genId : Nat → String)
    (s : StreamState) : List OpenAIStreamChunk →
    List GenerateContentResponse × StreamState
  | [] => ([], s)
  | c :: rest =>
      let r := processChunk p genId s c
      let tail := processChunks p genId r.2 rest
      (r.1 ++ tail.1, tail.2)

/-- The trailing flush after the source is exhausted: when calls are still
active, finalize the remaining accumulators and emit one final response with
finish reason STOP and index 0 iff any parts were staged. -/
def trailingFlush (p : String → Option Json) (genId : Nat → String)
    (s : StreamState) : List GenerateContentResponse :=
  if s.hasActiveToolCalls then
    let fin := finalizeParts p genId s.ctr s.currentFunctionCall s.currentToolCalls
    if fin.1.length > 0 then [mkStreamResponse fin.1 (some FinishReason.STOP) 0]
    else []
  else []

/-- Shallow embedding of `convertFromOpenAIStream`: the finite emission
sequence produced from a finite chunk sequence, including the trailing
flush. -/
def convertFromOpenAIStream (p : String → Option Json) (genId : Nat → String)
    (chunks : List OpenAIStreamChunk) : List GenerateContentResponse :=
  let r := processChunks p genId {} chunks
  r.1 ++ trailingFlush p genId r.2

/-- Erasure of wire tool-call ids from a message, used to state determinism
of translation up to synthesized call ids. -/
def stripToolCallIds (m : OpenAIMessage) : OpenAIMessage :=
  { m with tool_calls := m.tool_calls.map (fun tcs => tcs.map (fun tc => { tc with id := "" })) }

/-- Erasure of wire tool-call ids from a whole request. -/
def stripRequestIds (r : OpenAIChatRequest) : OpenAIChatRequest :=
  { r with messages := r.messages.map stripToolCallIds }

/-- The flush trigger exactly as the claim states it: a call fragment has
been observed and not yet fully flushed (`callsActive`), and either the
finish-reason is `function_call` or `tool_calls`, or the delta carries
neither a legacy function-call fragment nor indexed tool-call fragments. -/
def claimFlushTrigger (genId : Nat → String) (s : StreamState)
    (choice : ChunkChoice) : Prop :=
  (accumulateDelta genId s choice.delta).hasActiveToolCalls = true ∧
  (choice.finish_reason = some "function_call" ∨
   choice.finish_reason = some "tool_calls" ∨
   (choice.delta.function_call = none ∧ choice.delta.tool_calls = none))

/-- A parse oracle that fails on every input (used by witnesses). -/
def parseNever : String → Option Json := fun _ => none

/-- A deterministic id generator (used by witnesses). -/
def genIdNum : Nat → String := fun n => "call_gen_" ++ toString n

/-- The concatenated argument string of the three-chunk scenario. -/
def cityArgString : String := "\x7b\"city\": \"SF\"\x7d"

/-- The parsed argument object of the three-chunk scenario. -/
def cityArgsJson : Json := Json.obj [("city", Json.str "SF")]

/-- A parse oracle recognising exactly the concatenated city argument string. -/
def parseCity : String → Option Json :=
  fun s => if s = cityArgString then some cityArgsJson else none

/-- Chunk 1 of the three-chunk scenario: indexed fragment carrying id and
function name. -/
def weatherChunk1 : OpenAIStreamChunk :=
  { choices := [{ index := 0,
                  delta := { tool_calls := some [{ index := 0, id := some "call_1",
                                                   function := some { name := some "get_weather" } }] } }] }

/-- Chunk 2 of the three-chunk scenario: indexed fragment carrying the first
argument fragment. -/
def weatherChunk2 : OpenAIStreamChunk :=
  { choices := [{ index := 0,
                  delta := { tool_calls := some [{ index := 0,
                                                   function := some { arguments := some "\x7b\"city\":" } }] } }] }

/-- Chunk 3 of the three-chunk scenario: indexed fragment carrying the second
argument fragment, with finish reason `tool_calls`. -/
def weatherChunk3 : OpenAIStreamChunk :=
  { choices := [{ index := 0,
                  delta := { tool_calls := some [{ index := 0,
                                                   function := some { arguments := some " \"SF\"\x7d" } }] },
                  finish_reason := some "tool_calls" }] }

/-- C7: the finish-reason mapper is a total deterministic function with
stop ↦ STOP, length ↦ MAX_TOKENS, function_call ↦ STOP, tool_calls ↦ STOP,
content_filter ↦ SAFETY, and every other wire token ↦ OTHER. -/
theorem mapFinishReason_total_spec :
    mapFinishReason "stop" = FinishReason.STOP ∧
    mapFinishReason "length" = FinishReason.MAX_TOKENS ∧
    mapFinishReason "function_call" = FinishReason.STOP ∧
    mapFinishReason "tool_calls" = FinishReason.STOP ∧
    mapFinishReason "content_filter" = FinishReason.SAFETY ∧
    ∀ s, s ∉ (["stop", "length", "function_call", "tool_calls", "content_filter"] : List String) →
      mapFinishReason s = FinishReason.OTHER := by
  refine ⟨rfl, rfl, rfl, rfl, rfl, ?_⟩
  intro s hs
  simp only [List.mem_cons, List.not_mem_nil, or_false, not_or] at hs
  obtain ⟨h1, h2, h3, h4, h5⟩ := hs
  simp [mapFinishReason, h1, h2, h3, h4, h5]

/-- Witness for C7: an unrecognised wire token maps to OTHER. -/
theorem mapFinishReason_total_spec_witness :
    mapFinishReason "max_tokens_exceeded" = FinishReason.OTHER :=
  mapFinishReason_total_spec.2.2.2.2.2 "max_tokens_exceeded" (by decide)

/-- C5: the non-streaming reconstructor fails with the protocol error exactly
when the wire response has zero choices, and returns a response without
raising for every wire response with at least one choice. -/
theorem response_error_iff_no_choices (p : String → Option Json)
    (genId : Nat → String) (resp : OpenAIChatResponse) :
    (resp.choices = [] →
       convertFromOpenAIResponse p genId resp = Except.error "No choices in OpenAI response")
  ∧ (resp.choices ≠ [] →
       ∃ r, convertFromOpenAIResponse p genId resp = Except.ok r) := by
  constructor
  · intro h
    simp [convertFromOpenAIResponse, h]
  · intro h
    cases hc : resp.choices with
    | nil => exact absurd hc h
    | cons a l =>
        cases hres : convertFromOpenAIResponse p genId resp with
        | ok r => exact ⟨r, rfl⟩
        | error e => simp [convertFromOpenAIResponse, hc] at hres

/-- Witness for C5: a response with zero choices errors, a one-choice
response succeeds. -/
theorem response_error_iff_no_choices_witness :
    convertFromOpenAIResponse parseNever genIdNum { choices := [] } =
      Except.error "No choices in OpenAI response" ∧
    ∃ r, convertFromOpenAIResponse parseNever genIdNum
      { choices := [{ index := 0, message := { content := some "hi" }, finish_reason := "stop" }] } =
        Except.ok r :=
  ⟨(response_error_iff_no_choices parseNever genIdNum { choices := [] }).1 rfl,
   (response_error_iff_no_choices parseNever genIdNum
     { choices := [{ index := 0, message := { content := some "hi" }, finish_reason := "stop" }] }).2
     (by simp)⟩

/-- C1: on the three-chunk indexed tool-call scenario, the streaming
reconstructor concatenates the argument fragments of index 0 in arrival order
and yields, on chunk 3, exactly one response holding one function-call part
with id `call_1`, name `get_weather`, and the parsed argument object. -/
theorem streaming_call_reconstruction (p : String → Option Json)
    (genId : Nat → String) (v : Json) (hp : p cityArgString = some v) :
    convertFromOpenAIStream p genId [weatherChunk1, weatherChunk2, weatherChunk3] =
      [{ candidates := [{ content := { role := "model",
                                       parts := [Part.functionCall { id := some "call_1",
                                                                     name := some "get_weather",
                                                                     args := some v }] },
                          finishReason := some FinishReason.STOP,
                          index := 0 }],
         usageMetadata := none,
         functionCalls := some [{ id := some "call_1", name := some "get_weather",
                                  args := some v }] }] := by
  have h0 : convertFromOpenAIStream p genId [weatherChunk1, weatherChunk2, weatherChunk3] =
      [{ candidates := [{ content := { role := "model",
                                       parts := [Part.functionCall { id := some "call_1",
                                                                     name := some "get_weather",
                                                                     args := some ((p cityArgString).getD (Json.obj [])) }] },
                          finishReason := some FinishReason.STOP,
                          index := 0 }],
         usageMetadata := none,
         functionCalls := some [{ id := some "call_1", name := some "get_weather",
                                  args := some ((p cityArgString).getD (Json.obj [])) }] }] := rfl
  rw [h0, hp]
  simp [Option.getD]

/-- Witness for C1: the scenario evaluated at a concrete parse oracle. -/
theorem streaming_call_reconstruction_witness :
    parseCity cityArgString = some cityArgsJson ∧
    convertFromOpenAIStream parseCity genIdNum [weatherChunk1, weatherChunk2, weatherChunk3] =
      [{ candidates := [{ content := { role := "model",
                                       parts := [Part.functionCall { id := some "call_1",
                                                                     name := some "get_weather",
                                                                     args := some cityArgsJson }] },
                          finishReason := some FinishReason.STOP,
                          index := 0 }],
         usageMetadata := none,
         functionCalls := some [{ id := some "call_1", name := some "get_weather",
                                  args := some cityArgsJson }] }] :=
  ⟨rfl, streaming_call_reconstruction parseCity genIdNum cityArgsJson rfl⟩

/-- Staged text parts contribute nothing to the extracted function-call
list. -/
theorem functionCallsOf_stagedTextNS_append (msg : RespMessage) (l : List Part) :
    functionCallsOf (stagedTextNS msg ++ l) = functionCallsOf l := by
  unfold stagedTextNS functionCallsOf
  cases msg.content with
  | none => simp
  | some c =>
      by_cases hc : c = "" <;> simp [hc]

/-- C10: a wire message carrying an empty tool-call list together with a
legacy function-call is treated as if the tool-call list were absent: exactly
one function-call part is emitted from the legacy call, with a synthesized id
and the parse-or-empty-object policy. -/
theorem empty_tool_calls_fall_back_to_legacy (p : String → Option Json)
    (genId : Nat → String) (resp : OpenAIChatResponse) (choice : RespChoice)
    (rest : List RespChoice) (fcall : WireFunction)
    (hchoices : resp.choices = choice :: rest)
    (htc : choice.message.tool_calls = some [])
    (hfc : choice.message.function_call = some fcall) :
    convertFromOpenAIResponse p genId resp =
      Except.ok
        { candidates := [{ content := { role := "model",
                                        parts := stagedTextNS choice.message ++
                                          [Part.functionCall { id := some (genId 0),
                                                               name := some fcall.name,
                                                               args := some (parseStrOrEmpty p fcall.arguments) }] },
                           finishReason := some (mapFinishReason choice.finish_reason),
                           index := choice.index }],
          usageMetadata := resp.usage.map (fun u =>
            { promptTokenCount := u.prompt_tokens,
              candidatesTokenCount := u.completion_tokens,
              totalTokenCount := u.total_tokens }),
          functionCalls := some [{ id := some (genId 0), name := some fcall.name,
                                   args := some (parseStrOrEmpty p fcall.arguments) }] } := by
  have hparts : callPartsNS p genId choice.message =
      [Part.functionCall { id := some (genId 0), name := some fcall.name,
                           args := some (parseStrOrEmpty p fcall.arguments) }] := by
    simp [callPartsNS, htc, hfc, convertLegacyCall]
  simp [convertFromOpenAIResponse, hchoices, hparts,
        functionCallsOf_stagedTextNS_append, functionCallsOf]
  intro a ha
  unfold stagedTextNS at ha
  cases h : choice.message.content with
  | none => rw [h] at ha; simp at ha
  | some c =>
      rw [h] at ha
      by_cases hc : c = "" <;> simp [hc] at ha
      rw [ha]

/-- Witness for C10: a concrete response with `tool_calls: []` and a legacy
function-call yields the single legacy part. -/
theorem empty_tool_calls_fall_back_to_legacy_witness :
    convertFromOpenAIResponse parseNever genIdNum
      { choices := [{ index := 0,
                      message := { content := none,
                                   function_call := some { name := "f", arguments := "\x7bbad" },
                                   tool_calls := some [] },
                      finish_reason := "tool_calls" }] } =
      Except.ok
        { candidates := [{ content := { role := "model",
                                        parts := [Part.functionCall { id := some "call_gen_0",
                                                                      name := some "f",
                                                                      args := some (Json.obj []) }] },
                           finishReason := some FinishReason.STOP,
                           index := 0 }],
          usageMetadata := none,
          functionCalls := some [{ id := some "call_gen_0", name := some "f",
                                   args := some (Json.obj []) }] } := by
  have h := empty_tool_calls_fall_back_to_legacy parseNever genIdNum
    { choices := [{ index := 0,
                    message := { content := none,
                                 function_call := some { name := "f", arguments := "\x7bbad" },
                                 tool_calls := some [] },
                    finish_reason := "tool_calls" }] }
    { index := 0,
      message := { content := none,
                   function_call := some { name := "f", arguments := "\x7bbad" },
                   tool_calls := some [] },
      finish_reason := "tool_calls" }
    [] { name := "f", arguments := "\x7bbad" } rfl rfl rfl
  simpa using h

/-- C6: the request translator applies exactly one branch per non-empty turn,
with fixed precedence function-response > function-call > text > other: a
function-response turn yields one tool message (everything else ignored), else
a function-call turn yields one assistant message with null content and a
one-element tool-call list, else text parts are concatenated in order (role
model ↦ assistant, others pass through), else placeholder strings are
emitted. -/
theorem turn_precedence (freshId : String) (c : Content) (hne : c.parts ≠ []) :
    (∀ rid resp, c.parts.find? isFunctionResponsePart = some (Part.functionResponse rid resp) →
       convertContentToOpenAIMessage freshId c =
         some { role := "tool", content := some (Json.stringify resp),
                tool_call_id := some (jsOrS rid "unknown") })
  ∧ (∀ fc, c.parts.find? isFunctionResponsePart = none →
       c.parts.find? isFunctionCallPart = some (Part.functionCall fc) →
       convertContentToOpenAIMessage freshId c =
         some { role := "assistant", content := none,
                tool_calls := some [{ id := jsOrS fc.id freshId,
                                      function := { name := fc.name.getD "",
                                                    arguments := Json.stringify (jsOrJ fc.args (Json.obj [])) } }] })
  ∧ (c.parts.find? isFunctionResponsePart = none →
       c.parts.find? isFunctionCallPart = none →
       c.parts.filter isTextPart ≠ [] →
       convertContentToOpenAIMessage freshId c =
         some { role := mapRole c.role,
                content := some (String.join ((c.parts.filter isTextPart).map textOfPart)) })
  ∧ (c.parts.find? isFunctionResponsePart = none →
       c.parts.find? isFunctionCallPart = none →
       c.parts.filter isTextPart = [] →
       convertContentToOpenAIMessage freshId c =
         some { role := mapRole c.role,
                content := some (String.intercalate "\n" (c.parts.map describeOtherPart)) })
  ∧ (mapRole "model" = "assistant" ∧ ∀ r, r ≠ "model" → mapRole r = r) := by
  have hlen : ¬(c.parts.length = 0) := by
    simpa [List.length_eq_zero] using hne
  refine ⟨?_, ?_, ?_, ?_, rfl, ?_⟩
  · intro rid resp hfr
    rw [convertContentToOpenAIMessage, if_neg hlen, hfr]
  · intro fc hfr hfc
    rw [convertContentToOpenAIMessage, if_neg hlen, hfr, hfc]
  · intro hfr hfc htext
    rw [convertContentToOpenAIMessage, if_neg hlen, hfr, hfc]
    simp only [if_pos (List.length_pos.mpr htext)]
  · intro hfr hfc htext
    have hother : c.parts.filter
        (fun pt => !(isTextPart pt) && !(isFunctionCallPart pt) && !(isFunctionResponsePart pt)) =
        c.parts := by
      refine List.filter_eq_self.mpr ?_
      intro a ha
      have h1 : ¬ isTextPart a = true := by
        intro h
        exact absurd htext (by
          have : a ∈ c.parts.filter isTextPart := List.mem_filter.mpr ⟨ha, h⟩
          intro hh
          rw [hh] at this
          exact List.not_mem_nil a this)
      have h2 : ¬ isFunctionCallPart a = true := by
        have := List.find?_eq_none.mp hfc
        exact this a ha
      have h3 : ¬ isFunctionResponsePart a = true := by
        have := List.find?_eq_none.mp hfr
        exact this a ha
      simp [h1, h2, h3]
    rw [convertContentToOpenAIMessage, if_neg hlen, hfr, hfc]
    simp only [htext, List.length_nil, gt_iff_lt, lt_self_iff_false, if_false]
    rw [hother]
    simp only [if_pos (List.length_pos.mpr hne)]
  · intro r hr
    simp [mapRole, hr]

/-- Witness for C6: a turn mixing a function-response part with a text part
produces exactly the tool-role message. -/
theorem turn_precedence_witness :
    convertContentToOpenAIMessage "fresh"
      { role := "user",
        parts := [Part.text "hello",
                  Part.functionResponse (some "call_9") (Json.obj [("ok", Json.bool true)])] } =
      some { role := "tool",
             content := some (Json.stringify (Json.obj [("ok", Json.bool true)])),
             tool_call_id := some "call_9" } := by
  have h := (turn_precedence "fresh"
    { role := "user",
      parts := [Part.text "hello",
                Part.functionResponse (some "call_9") (Json.obj [("ok", Json.bool true)])] }
    (by simp)).1 (some "call_9") (Json.obj [("ok", Json.bool true)]) rfl
  simpa [jsOrS] using h

/-- The JSON-schema instruction suffix is never the empty string. -/
theorem jsonSchemaInstruction_ne_empty (t : String) (sch : Json) :
    jsonSchemaInstruction t sch ≠ "" := by
  intro h
  have hlen := congrArg String.length h
  by_cases ht : t = "" <;>
    simp [jsonSchemaInstruction, ht, String.length_append] at hlen <;>
    exact absurd hlen.2 (by decide)

/-- C8: a request with a JSON response-schema constraint gets the instruction
suffix (schema serialized verbatim, return-only-JSON directive) appended to
its system text; the resulting text is non-empty and exactly one system
message carrying it is prepended to the content-derived message list; in
general a system message is prepended iff the final system text is
non-empty. -/
theorem json_schema_system_injection (targetModel : String) (genId : Nat → String)
    (req : GenerateContentParameters) (st : Bool) (cfg : GenerateConfig) (schema : Json)
    (hcfg : req.config = some cfg)
    (hmime : cfg.responseMimeType = some "application/json")
    (hschema : cfg.responseJsonSchema = some schema)
    (htruthy : jsTruthyJson schema = true) :
    systemTextFinal req.config =
      systemTextBase req.config ++ jsonSchemaInstruction (systemTextBase req.config) schema
  ∧ (∃ pre suf, systemTextFinal req.config =
      pre ++ Json.stringifyPretty schema ++ suf ∧
      suf = "\n\nReturn only the JSON object, no additional text or markdown formatting.")
  ∧ systemTextFinal req.config ≠ ""
  ∧ (convertToOpenAIRequest targetModel genId req st).messages =
      { role := "system", content := some (systemTextFinal req.config) } ::
        req.contents.enum.filterMap (fun ic => convertContentToOpenAIMessage (genId ic.1) ic.2)
  ∧ (∀ r2 : GenerateContentParameters,
      (convertToOpenAIRequest targetModel genId r2 st).messages =
        (if systemTextFinal r2.config = "" then []
         else [{ role := "system", content := some (systemTextFinal r2.config) }]) ++
          r2.contents.enum.filterMap (fun ic => convertContentToOpenAIMessage (genId ic.1) ic.2)) := by
  have h1 : systemTextFinal req.config =
      systemTextBase req.config ++ jsonSchemaInstruction (systemTextBase req.config) schema := by
    simp [systemTextFinal, hcfg, hmime, hschema, htruthy, jsonSchemaInstruction]
  have h2 : systemTextFinal req.config ≠ "" := by
    rw [h1]
    intro hh
    have hl := congrArg String.length hh
    simp [String.length_append] at hl
    exact jsonSchemaInstruction_ne_empty (systemTextBase req.config) schema
      (by
        have : (jsonSchemaInstruction (systemTextBase req.config) schema).length = 0 := by omega
        cases hj : jsonSchemaInstruction (systemTextBase req.config) schema with
        | mk data =>
            rw [hj] at this
            cases data with
            | nil => rfl
            | cons a l => simp [String.length, hj] at this)
  refine ⟨h1, ?_, h2, ?_, ?_⟩
  · refine ⟨systemTextBase req.config ++
      ((if systemTextBase req.config = "" then "" else "\n\n") ++
        "IMPORTANT: You must respond with valid JSON that follows this exact schema:\n"),
      "\n\nReturn only the JSON object, no additional text or markdown formatting.",
      ?_, rfl⟩
    rw [h1, jsonSchemaInstruction]
    simp [String.append_assoc]
  · simp [convertToOpenAIRequest, h2]
  · intro r2
    rfl

/-- Witness for C8: a request with a JSON schema and no system instruction
produces the system message as sole head of the message list. -/
theorem json_schema_system_injection_witness :
    (convertToOpenAIRequest "gpt-test" genIdNum
      { contents := [{ role := "user", parts := [Part.text "hi"] }],
        config := some { responseMimeType := some "application/json",
                         responseJsonSchema := some (Json.obj [("type", Json.str "object")]) } }
      true).messages =
      { role := "system",
        content := some (systemTextFinal (some { responseMimeType := some "application/json",
                                                 responseJsonSchema := some (Json.obj [("type", Json.str "object")]) })) } ::
        [{ role := "user", content := some "hi" }] := by
  have h := (json_schema_system_injection "gpt-test" genIdNum
    { contents := [{ role := "user", parts := [Part.text "hi"] }],
      config := some { responseMimeType := some "application/json",
                       responseJsonSchema := some (Json.obj [("type", Json.str "object")]) } }
    true
    { responseMimeType := some "application/json",
      responseJsonSchema := some (Json.obj [("type", Json.str "object")]) }
    (Json.obj [("type", Json.str "object")]) rfl rfl rfl rfl).2.2.2.1
  rw [h]
  rfl

/-- After erasing wire tool-call ids, the message produced from one turn does
not depend on the synthesized id supplied to it. -/
theorem strip_convertContent (id1 id2 : String) (c : Content) :
    (convertContentToOpenAIMessage id1 c).map stripToolCallIds =
    (convertContentToOpenAIMessage id2 c).map stripToolCallIds := by
  unfold convertContentToOpenAIMessage
  by_cases hlen : c.parts.length = 0
  · simp [hlen]
  · simp only [if_neg hlen]
    cases hfr : c.parts.find? isFunctionResponsePart with
    | none =>
        cases hfc : c.parts.find? isFunctionCallPart with
        | none => rfl
        | some pt2 => cases pt2 <;> rfl
    | some pt =>
        cases pt <;>
          first
            | rfl
            | (cases hfc : c.parts.find? isFunctionCallPart with
               | none => rfl
               | some pt2 => cases pt2 <;> rfl)

/-- Stripped content-derived message lists agree for any two id
generators. -/
theorem filterMap_strip_eq (g1 g2 : Nat → String) (l : List (Nat × Content)) :
    l.filterMap (fun ic => (convertContentToOpenAIMessage (g1 ic.1) ic.2).map stripToolCallIds) =
    l.filterMap (fun ic => (convertContentToOpenAIMessage (g2 ic.1) ic.2).map stripToolCallIds) := by
  induction l with
  | nil => rfl
  | cons a l ih =>
      rw [List.filterMap_cons, List.filterMap_cons, strip_convertContent (g1 a.1) (g2 a.1) a.2, ih]

/-- C9: translation is deterministic up to synthesized call ids — for any two
id generators, the translated wire requests agree after erasing tool-call
ids (every other field is produced identically). -/
theorem translation_deterministic_up_to_ids (targetModel : String)
    (g1 g2 : Nat → String) (req : GenerateContentParameters) (st : Bool) :
    stripRequestIds (convertToOpenAIRequest targetModel g1 req st) =
      stripRequestIds (convertToOpenAIRequest targetModel g2 req st) := by
  have hmess : (convertToOpenAIRequest targetModel g1 req st).messages.map stripToolCallIds =
      (convertToOpenAIRequest targetModel g2 req st).messages.map stripToolCallIds := by
    show ((if systemTextFinal req.config = "" then ([] : List OpenAIMessage)
           else [{ role := "system", content := some (systemTextFinal req.config) }]) ++
          req.contents.enum.filterMap
            (fun ic => convertContentToOpenAIMessage (g1 ic.1) ic.2)).map stripToolCallIds =
        ((if systemTextFinal req.config = "" then ([] : List OpenAIMessage)
           else [{ role := "system", content := some (systemTextFinal req.config) }]) ++
          req.contents.enum.filterMap
            (fun ic => convertContentToOpenAIMessage (g2 ic.1) ic.2)).map stripToolCallIds
    simp only [List.map_append, List.map_filterMap]
    rw [filterMap_strip_eq g1 g2 req.contents.enum]
  have key : ∀ g : Nat → String,
      stripRequestIds (convertToOpenAIRequest targetModel g req st) =
        { model := targetModel,
          messages := (convertToOpenAIRequest targetModel g req st).messages.map stripToolCallIds,
          stream := st,
          temperature := req.config.bind (fun c => c.temperature),
          top_p := req.config.bind (fun c => c.topP),
          tools := (convertToOpenAIRequest targetModel g req st).tools,
          tool_choice := (convertToOpenAIRequest targetModel g req st).tool_choice } :=
    fun g => rfl
  rw [key g1, key g2, hmess]
  rfl

/-- The boolean flush condition of `processChunk` coincides with the claim's
flush trigger. -/
theorem flush_cond_iff_claim (genId : Nat → String) (s : StreamState)
    (choice : ChunkChoice) :
    ((accumulateDelta genId s choice.delta).hasActiveToolCalls &&
      (isCallFinish choice.finish_reason ||
        (choice.delta.function_call.isNone && choice.delta.tool_calls.isNone))) = true ↔
    claimFlushTrigger genId s choice := by
  simp only [claimFlushTrigger, isCallFinish, Option.isNone_iff_eq_none,
             Bool.and_eq_true, Bool.or_eq_true, beq_iff_eq]
  tauto

/-- C2: for every chunk whose choice is present, the call-window is flushed
(accumulated parts staged into this chunk's emission, accumulators reset) if
and only if `callsActive` holds after accumulation and either the finish
reason is `function_call`/`tool_calls` or the delta carries neither call
field; otherwise the chunk only stages its text and keeps accumulating. -/
theorem stream_flush_trigger_iff (p : String → Option Json) (genId : Nat → String)
    (s : StreamState) (chunk : OpenAIStreamChunk) (choice : ChunkChoice)
    (hchoice : chunk.choices.head? = some choice) :
    (claimFlushTrigger genId s choice →
       processChunk p genId s chunk =
         (let s1 := accumulateDelta genId s choice.delta
          let fin := finalizeParts p genId s1.ctr s1.currentFunctionCall s1.currentToolCalls
          let parts := stagedTextStream choice.delta.content ++ fin.1
          (if parts.length > 0 then
             [mkStreamResponse parts (chunkFinishReason choice.finish_reason) choice.index]
           else [],
           { currentFunctionCall :=
               if jsTruthyOS s1.currentFunctionCall.name then {}
               else s1.currentFunctionCall,
             currentToolCalls := [],
             hasActiveToolCalls :=
               if isCallFinish choice.finish_reason then false
               else s1.hasActiveToolCalls,
             ctr := fin.2 })))
  ∧ (¬ claimFlushTrigger genId s choice →
       processChunk p genId s chunk =
         (let parts := stagedTextStream choice.delta.content
          (if parts.length > 0 then
             [mkStreamResponse parts (chunkFinishReason choice.finish_reason) choice.index]
           else [], accumulateDelta genId s choice.delta))) := by
  constructor
  · intro h
    have hb : ((accumulateDelta genId s choice.delta).hasActiveToolCalls &&
        (isCallFinish choice.finish_reason ||
          (choice.delta.function_call.isNone && choice.delta.tool_calls.isNone))) = true :=
      (flush_cond_iff_claim genId s choice).mpr h
    simp only [processChunk, hchoice, hb, if_true]
  · intro h
    have hb : ((accumulateDelta genId s choice.delta).hasActiveToolCalls &&
        (isCallFinish choice.finish_reason ||
          (choice.delta.function_call.isNone && choice.delta.tool_calls.isNone))) = false := by
      by_contra hbb
      exact h ((flush_cond_iff_claim genId s choice).mp (by
        revert hbb
        cases ((accumulateDelta genId s choice.delta).hasActiveToolCalls &&
          (isCallFinish choice.finish_reason ||
            (choice.delta.function_call.isNone && choice.delta.tool_calls.isNone))) <;> simp))
    simp only [processChunk, hchoice, hb]
    simp

/-- Witness for C2: a chunk with an active accumulator and finish reason
`tool_calls` flushes; the same chunk without the trigger does not. -/
theorem stream_flush_trigger_iff_witness :
    processChunk parseNever genIdNum
      { currentFunctionCall := {},
        currentToolCalls := [(0, { id := some "call_7", name := some "f", arguments := some "x" })],
        hasActiveToolCalls := true, ctr := 0 }
      { choices := [{ index := 0, delta := {}, finish_reason := some "tool_calls" }] } =
      ([mkStreamResponse
          [Part.functionCall { id := some "call_7", name := some "f", args := some (Json.obj []) }]
          (some FinishReason.STOP) 0],
       { currentFunctionCall := {}, currentToolCalls := [],
         hasActiveToolCalls := false, ctr := 0 }) := by
  have h := (stream_flush_trigger_iff parseNever genIdNum
    { currentFunctionCall := {},
      currentToolCalls := [(0, { id := some "call_7", name := some "f", arguments := some "x" })],
      hasActiveToolCalls := true, ctr := 0 }
    { choices := [{ index := 0, delta := {}, finish_reason := some "tool_calls" }] }
    { index := 0, delta := {}, finish_reason := some "tool_calls" } rfl).1
    (by constructor <;> simp [accumulateDelta, claimFlushTrigger])
  rw [h]
  rfl

/-- Accumulation never clears `hasActiveToolCalls`. -/
theorem accumulate_hasActive_mono (genId : Nat → String) (s : StreamState)
    (d : ChunkDelta) (h : s.hasActiveToolCalls = true) :
    (accumulateDelta genId s d).hasActiveToolCalls = true := by
  unfold accumulateDelta
  cases hfc : d.function_call <;> cases htc : d.tool_calls <;> simp [h]

/-- A delta carrying either call field sets `hasActiveToolCalls`. -/
theorem accumulate_hasActive_frag (genId : Nat → String) (s : StreamState)
    (d : ChunkDelta) (h : d.function_call ≠ none ∨ d.tool_calls ≠ none) :
    (accumulateDelta genId s d).hasActiveToolCalls = true := by
  unfold accumulateDelta
  cases hfc : d.function_call <;> cases htc : d.tool_calls <;> simp
  rcases h with h | h
  · exact absurd hfc h
  · exact absurd htc h

/-- Processing a chunk without a call-finish reason keeps
`hasActiveToolCalls` set. -/
theorem processChunk_hasActive_mono (p : String → Option Json) (genId : Nat → String)
    (s : StreamState) (chunk : OpenAIStreamChunk) (h : s.hasActiveToolCalls = true)
    (hfin : ∀ ch, chunk.choices.head? = some ch → isCallFinish ch.finish_reason = false) :
    (processChunk p genId s chunk).2.hasActiveToolCalls = true := by
  cases hc : chunk.choices.head? with
  | none => simp [processChunk, hc, h]
  | some choice =>
      have hA := accumulate_hasActive_mono genId s choice.delta h
      have hcf := hfin choice hc
      simp only [processChunk, hc]
      split
      · simp [hcf, hA]
      · simpa using hA

/-- Processing a chunk whose choice carries a call fragment and no call-finish
reason leaves `hasActiveToolCalls` set. -/
theorem processChunk_hasActive_frag (p : String → Option Json) (genId : Nat → String)
    (s : StreamState) (chunk : OpenAIStreamChunk) (ch : ChunkChoice)
    (hch : chunk.choices.head? = some ch)
    (hfrag : ch.delta.function_call ≠ none ∨ ch.delta.tool_calls ≠ none)
    (hcf : isCallFinish ch.finish_reason = false) :
    (processChunk p genId s chunk).2.hasActiveToolCalls = true := by
  have hA := accumulate_hasActive_frag genId s ch.delta hfrag
  simp only [processChunk, hch]
  split
  · simp [hcf, hA]
  · simpa using hA

/-- Over a chunk sequence without call-finish reasons, `hasActiveToolCalls`
ends set whenever it started set or some chunk delivered a call fragment. -/
theorem processChunks_hasActive (p : String → Option Json) (genId : Nat → String)
    (chunks : List OpenAIStreamChunk) : ∀ s : StreamState,
    (∀ c ∈ chunks, ∀ ch, c.choices.head? = some ch → isCallFinish ch.finish_reason = false) →
    (s.hasActiveToolCalls = true ∨
      ∃ c ∈ chunks, ∃ ch, c.choices.head? = some ch ∧
        (ch.delta.function_call ≠ none ∨ ch.delta.tool_calls ≠ none)) →
    (processChunks p genId s chunks).2.hasActiveToolCalls = true := by
  induction chunks with
  | nil =>
      intro s _ h
      rcases h with h | ⟨c, hc, _⟩
      · simpa [processChunks] using h
      · exact absurd hc (List.not_mem_nil c)
  | cons a rest ih =>
      intro s hfin h
      simp only [processChunks]
      apply ih
      · intro c hc
        exact hfin c (List.mem_cons_of_mem a hc)
      · rcases h with h | ⟨c, hc, ch, hch, hfrag⟩
        · exact Or.inl (processChunk_hasActive_mono p genId s a h
            (fun ch hch => hfin a (List.mem_cons_self a rest) ch hch))
        · rcases List.mem_cons.mp hc with rfl | hc'
          · exact Or.inl (processChunk_hasActive_frag p genId s c ch hch hfrag
              (hfin c (List.mem_cons_self c rest) ch hch))
          · exact Or.inr ⟨c, hc', ch, hch, hfrag⟩

/-- C3: a finite stream that delivers call fragments and never carries a
`function_call`/`tool_calls` finish reason yields, after the source is
exhausted, exactly one trailing response holding the parts reconstructed from
the still-unflushed accumulators with finish reason STOP — and no trailing
response when finalization stages no parts. -/
theorem unterminated_stream_flush (p : String → Option Json) (genId : Nat → String)
    (chunks : List OpenAIStreamChunk)
    (hfrag : ∃ c ∈ chunks, ∃ ch, c.choices.head? = some ch ∧
       (ch.delta.function_call ≠ none ∨ ch.delta.tool_calls ≠ none))
    (hnofin : ∀ c ∈ chunks, ∀ ch, c.choices.head? = some ch →
       ch.finish_reason ≠ some "function_call" ∧ ch.finish_reason ≠ some "tool_calls") :
    convertFromOpenAIStream p genId chunks =
      (processChunks p genId {} chunks).1 ++
        (let s := (processChunks p genId {} chunks).2
         let fin := finalizeParts p genId s.ctr s.currentFunctionCall s.currentToolCalls
         if fin.1.length > 0 then [mkStreamResponse fin.1 (some FinishReason.STOP) 0]
         else []) := by
  have hfin' : ∀ c ∈ chunks, ∀ ch, c.choices.head? = some ch →
      isCallFinish ch.finish_reason = false := by
    intro c hc ch hch
    have hcc := hnofin c hc ch hch
    simp [isCallFinish, hcc.1, hcc.2]
  have hact := processChunks_hasActive p genId chunks {} hfin' (Or.inr hfrag)
  simp [convertFromOpenAIStream, trailingFlush, hact]

/-- Witness for C3: one fragment-bearing chunk with no finish reason produces
exactly the trailing STOP response. -/
theorem unterminated_stream_flush_witness :
    convertFromOpenAIStream parseNever genIdNum
      [{ choices := [{ index := 0,
                       delta := { tool_calls := some [{ index := 0, id := some "call_9",
                                                        function := some { name := some "g",
                                                                           arguments := some "notjson" } }] } }] }] =
      [mkStreamResponse
        [Part.functionCall { id := some "call_9", name := some "g", args := some (Json.obj []) }]
        (some FinishReason.STOP) 0] := by
  have h := unterminated_stream_flush parseNever genIdNum
    [{ choices := [{ index := 0,
                     delta := { tool_calls := some [{ index := 0, id := some "call_9",
                                                      function := some { name := some "g",
                                                                         arguments := some "notjson" } }] } }] }]
    ⟨_, List.mem_cons_self _ _,
     { index := 0,
       delta := { tool_calls := some [{ index := 0, id := some "call_9",
                                        function := some { name := some "g",
                                                           arguments := some "notjson" } }] } },
     rfl, Or.inr (by simp)⟩
    (by
      intro c hc ch hch
      rcases List.mem_cons.mp hc with rfl | hc'
      · cases hch
        exact ⟨by simp, by simp⟩
      · exact absurd hc' (List.not_mem_nil c))
  rw [h]
  rfl

/-- The non-streaming per-call loop emits exactly one part per wire call. -/
theorem convertToolCallsLoop_length (p : String → Option Json) (genId : Nat → String)
    (tcs : List WireToolCall) : ∀ ctr,
    (convertToolCallsLoop p genId tcs ctr).1.length = tcs.length := by
  induction tcs with
  | nil => intro ctr; rfl
  | cons tc rest ih =>
      intro ctr
      simp only [convertToolCallsLoop, List.length_cons]
      rw [ih]

/-- Each part of the non-streaming per-call loop is converted from the wire
call at the same position, independently of its siblings: its name is the
wire name and its args follow the parse-or-empty-object policy. -/
theorem convertToolCallsLoop_get (p : String → Option Json) (genId : Nat → String)
    (tcs : List WireToolCall) : ∀ ctr i (hi : i < tcs.length)
    (hj : i < (convertToolCallsLoop p genId tcs ctr).1.length),
    ∃ idStr, (convertToolCallsLoop p genId tcs ctr).1.get ⟨i, hj⟩ =
      Part.functionCall { id := some idStr,
                          name := some (tcs.get ⟨i, hi⟩).function.name,
                          args := some (parseStrOrEmpty p (tcs.get ⟨i, hi⟩).function.arguments) } := by
  induction tcs with
  | nil => intro ctr i hi hj; exact absurd hi (by simp)
  | cons tc rest ih =>
      intro ctr i hi hj
      cases i with
      | zero =>
          refine ⟨(if tc.id = "" then (genId ctr, ctr + 1) else (tc.id, ctr)).1, ?_⟩
          simp [convertToolCallsLoop]
      | succ n =>
          have hn : n < rest.length := by
            simpa using hi
          have hjj : n < (convertToolCallsLoop p genId rest
              (if tc.id = "" then (genId ctr, ctr + 1) else (tc.id, ctr)).2).1.length := by
            rw [convertToolCallsLoop_length]
            exact hn
          obtain ⟨idStr, hid⟩ := ih (if tc.id = "" then (genId ctr, ctr + 1) else (tc.id, ctr)).2 n hn hjj
          refine ⟨idStr, ?_⟩
          simpa [convertToolCallsLoop] using hid

/-- Every named streaming accumulator contributes a part with the
parse-or-empty-object policy, whatever its siblings hold. -/
theorem finalizeToolAccs_mem (p : String → Option Json) (genId : Nat → String)
    (accs : List (Nat × CallAcc)) : ∀ ctr (acc : Nat × CallAcc), acc ∈ accs →
    jsTruthyOS acc.2.name = true →
    ∃ idStr, Part.functionCall { id := some idStr, name := acc.2.name,
                                 args := some (parseArgsOrEmpty p acc.2.arguments) }
      ∈ (finalizeToolAccs p genId accs ctr).1 := by
  induction accs with
  | nil => intro ctr acc hmem; exact absurd hmem (List.not_mem_nil acc)
  | cons a rest ih =>
      intro ctr acc hmem hname
      rcases List.mem_cons.mp hmem with rfl | hmem'
      · refine ⟨(idOrMint genId ctr acc.2.id).1, ?_⟩
        simp [finalizeToolAccs, hname]
      · by_cases ha : jsTruthyOS a.2.name = true
        · obtain ⟨idStr, hid⟩ := ih (idOrMint genId ctr a.2.id).2 acc hmem' hname
          exact ⟨idStr, by simp [finalizeToolAccs, ha]; right; exact hid⟩
        · obtain ⟨idStr, hid⟩ := ih ctr acc hmem' hname
          exact ⟨idStr, by simp [finalizeToolAccs, ha]; exact hid⟩

/-- C4: a call whose argument string fails to parse degrades to an
empty-object args value in both reconstructors, without aborting the
exchange and without disturbing sibling parts: the non-streaming parts are
text plus one part per wire call converted independently, and every named
streaming accumulator still contributes its part. -/
theorem malformed_args_degrade (p : String → Option Json) (genId : Nat → String) :
    (∀ s, s ≠ "" → p s = none → parseStrOrEmpty p s = Json.obj [])
  ∧ (∀ x a, x = some a → a ≠ "" → p a = none → parseArgsOrEmpty p x = Json.obj [])
  ∧ (∀ resp choice rest, resp.choices = choice :: rest →
      ∃ r, convertFromOpenAIResponse p genId resp = Except.ok r ∧
        r.candidates.map (fun cand => cand.content.parts) =
          [stagedTextNS choice.message ++ callPartsNS p genId choice.message])
  ∧ (∀ tcs ctr, (convertToolCallsLoop p genId tcs ctr).1.length = tcs.length)
  ∧ (∀ tcs ctr i (hi : i < tcs.length)
      (hj : i < (convertToolCallsLoop p genId tcs ctr).1.length),
      ∃ idStr, (convertToolCallsLoop p genId tcs ctr).1.get ⟨i, hj⟩ =
        Part.functionCall { id := some idStr,
                            name := some (tcs.get ⟨i, hi⟩).function.name,
                            args := some (parseStrOrEmpty p (tcs.get ⟨i, hi⟩).function.arguments) })
  ∧ (∀ accs ctr acc, acc ∈ accs → jsTruthyOS acc.2.name = true →
      ∃ idStr, Part.functionCall { id := some idStr, name := acc.2.name,
                                   args := some (parseArgsOrEmpty p acc.2.arguments) }
        ∈ (finalizeToolAccs p genId accs ctr).1) := by
  refine ⟨?_, ?_, ?_, convertToolCallsLoop_length p genId,
          convertToolCallsLoop_get p genId, finalizeToolAccs_mem p genId⟩
  · intro s hs hp
    simp [parseStrOrEmpty, hs, hp]
  · intro x a hx ha hp
    subst hx
    simp [parseArgsOrEmpty, ha, hp]
  · intro resp choice rest hchoices
    refine ⟨{ candidates := [{ content := { role := "model",
                                            parts := stagedTextNS choice.message ++
                                              callPartsNS p genId choice.message },
                               finishReason := some (mapFinishReason choice.finish_reason),
                               index := choice.index }],
              usageMetadata := resp.usage.map (fun u =>
                { promptTokenCount := u.prompt_tokens,
                  candidatesTokenCount := u.completion_tokens,
                  totalTokenCount := u.total_tokens }),
              functionCalls :=
                if (functionCallsOf (stagedTextNS choice.message ++
                      callPartsNS p genId choice.message)).length > 0 then
                  some (functionCallsOf (stagedTextNS choice.message ++
                    callPartsNS p genId choice.message))
                else none }, ?_, rfl⟩
    simp [convertFromOpenAIResponse, hchoices]

/-- Witness for C4: a truncated argument buffer degrades to the empty object,
and the sibling call with valid JSON is unaffected in the same response. -/
theorem malformed_args_degrade_witness :
    parseStrOrEmpty parseNever "\x7b\"city\": " = Json.obj [] ∧
    parseArgsOrEmpty parseNever (some "\x7b\"city\": ") = Json.obj [] := by
  constructor
  · exact (malformed_args_degrade parseNever genIdNum).1 "\x7b\"city\": " (by decide) rfl
  · exact (malformed_args_degrade parseNever genIdNum).2.1 (some "\x7b\"city\": ") "\x7b\"city\": "
      rfl (by decide) rfl

end GeminiOpenAI
